import Mathlib

/-!
Verification of the SafeRoute crime-risk scoring engine.

The definitions below are a shallow embedding of the scoring code that ships
with the repository (the Python functions of the scoring document and the
TypeScript helpers of the frontend).  Machine floats are modelled as exact
rationals; Python dictionaries keyed by crime category are modelled as
functions out of a finite category type; fallible code returns `Except`.
-/

namespace SafeRoute

/-- Crime categories.  The source spells out the weight rows for
`violent-crime` and `burglary` and elides the remaining categories
("... other categories"); they are modelled here by the single
constructor `other` with the default harm weight 1.0. -/
inductive Cat where
  | violentCrime
  | burglary
  | other
deriving DecidableEq, Fintype, Repr

/-- Per-category harm weights as given in the scoring document
(violent-crime 3.0, burglary 2.0, default 1.0). -/
def harm_weight : Cat → ℚ
  | .violentCrime => 3
  | .burglary => 2
  | .other => 1

/-- The four diurnal buckets of the time-of-day weighting. -/
inductive TimeOfDay where
  | night
  | evening
  | day
  | morning
deriving DecidableEq, Fintype, Repr

/-- CRIME_TIME_WEIGHTS from the scoring document: per-category multipliers
for the four diurnal buckets (rows shown in the source; elided categories
modelled with multiplier 1). -/
def CRIME_TIME_WEIGHTS : Cat → TimeOfDay → ℚ
  | .violentCrime, .night => 2.5
  | .violentCrime, .evening => 2
  | .violentCrime, .day => 1
  | .violentCrime, .morning => 0.8
  | .burglary, .night => 2
  | .burglary, .evening => 1.5
  | .burglary, .day => 1.2
  | .burglary, .morning => 1
  | .other, _ => 1

/-- RECENCY_WEIGHTS lookup with default 0.30, exactly the Python
`RECENCY_WEIGHTS.get(months_ago, 0.30)` of `get_recency_weight`. -/
def get_recency_weight (months_ago : ℕ) : ℚ :=
  if months_ago = 0 then 1
  else if months_ago = 1 then 0.95
  else if months_ago = 2 then 0.9
  else if months_ago = 3 then 0.85
  else if months_ago = 4 then 0.75
  else if months_ago = 5 then 0.7
  else if months_ago = 6 then 0.65
  else if months_ago = 7 then 0.6
  else if months_ago = 8 then 0.55
  else if months_ago = 9 then 0.5
  else if months_ago = 10 then 0.45
  else if months_ago = 11 then 0.4
  else if months_ago = 12 then 0.35
  else 0.3

/-- RISK_THRESHOLDS from the scoring document. -/
def RISK_THRESHOLDS_very_low : ℚ := 5
def RISK_THRESHOLDS_low : ℚ := 20
def RISK_THRESHOLDS_moderate : ℚ := 50
def RISK_THRESHOLDS_high : ℚ := 100
def RISK_THRESHOLDS_very_high : ℚ := 200

/-- The function `calculate_risk_score` of the scoring document: the piecewise-linear
map from a weighted crime count to a normalized risk score in [0, 1]. -/
def calculate_risk_score (weighted_count : ℚ) : ℚ :=
  if weighted_count = 0 then 0
  else if weighted_count < RISK_THRESHOLDS_very_low then
    0.2 * weighted_count / RISK_THRESHOLDS_very_low
  else if weighted_count < RISK_THRESHOLDS_low then
    0.2 + 0.2 * ((weighted_count - 5) / (20 - 5))
  else if weighted_count < RISK_THRESHOLDS_moderate then
    0.4 + 0.2 * ((weighted_count - 20) / (50 - 20))
  else if weighted_count < RISK_THRESHOLDS_high then
    0.6 + 0.2 * ((weighted_count - 50) / (100 - 50))
  else if weighted_count < RISK_THRESHOLDS_very_high then
    0.8 + 0.15 * ((weighted_count - 100) / (200 - 100))
  else
    0.95 + 0.05 * (min (weighted_count - 200) 200 / 200)

/-- A SafetyCell bucket: one (h3 cell, month) aggregate.  The month is an
absolute month index (count of months since some epoch) so that months-ago
arithmetic is plain ℕ subtraction; `stats` is the per-category histogram,
modelled as a total function (absent dictionary keys are 0). -/
structure SafetyCell where
  month : ℕ
  crime_count_total : ℕ
  crime_count_weighted : ℚ
  stats : Cat → ℕ

/-- Months between a cell's month and the query-time current month
(`calculate_months_ago(cell.month, current_month)` in the source). -/
def calculate_months_ago (cellMonth currentMonth : ℕ) : ℕ :=
  currentMonth - cellMonth

/-- One step of the monthly aggregation fold of the scoring document:
`crime_count_total += 1`, `crime_count_weighted += harm_weight`,
`stats[category] += 1`. -/
def fold_event (cell : SafetyCell) (category : Cat) : SafetyCell :=
  { cell with
    crime_count_total := cell.crime_count_total + 1
    crime_count_weighted := cell.crime_count_weighted + harm_weight category
    stats := fun c => if c = category then cell.stats c + 1 else cell.stats c }

/-- A fresh, empty bucket for a month. -/
def empty_cell (month : ℕ) : SafetyCell :=
  { month := month
    crime_count_total := 0
    crime_count_weighted := 0
    stats := fun _ => 0 }

/-- The conservation invariant I1/P1: the raw total equals the histogram sum
and the weighted total equals the harm-weighted histogram sum. -/
def cell_conservation (cell : SafetyCell) : Prop :=
  cell.crime_count_total = ∑ c : Cat, cell.stats c ∧
  cell.crime_count_weighted = ∑ c : Cat, harm_weight c * (cell.stats c : ℚ)

/-- A point is a (lon, lat) pair of WGS84 coordinates, in degrees. -/
abbrev Point := ℚ × ℚ

/-- The per-vertex loop of `segment_route`: append the point to the current
sub-polyline and flush it as a segment once its length reaches the
threshold; the geometry library's `LineString(...).length` is passed in as
the `lineLength` argument. -/
def segment_route_loop (lineLength : List Point → ℚ) (max_segment_length : ℚ) :
    List (List Point) → List Point → List Point → List (List Point)
  | segments, _, [] => segments
  | segments, current_segment, point :: rest =>
    let seg := current_segment ++ [point]
    if max_segment_length ≤ lineLength seg then
      segment_route_loop lineLength max_segment_length (segments ++ [seg]) [point] rest
    else
      segment_route_loop lineLength max_segment_length segments seg rest

/-- The function `segment_route` of the scoring document.  The source's default threshold
is `max_segment_length = 0.001`, compared against the planar length of the
accumulated sub-polyline in coordinate (degree) units; the trailing
`current_segment` is never appended.  An empty coordinate list yields no
segments. -/
def segment_route (lineLength : List Point → ℚ) (max_segment_length : ℚ)
    (route_line : List Point) : List (List Point) :=
  match route_line with
  | [] => []
  | p :: rest => segment_route_loop lineLength max_segment_length [] [p] rest

/-- Planar polyline length as the coordinate-wise sum of absolute
differences.  On polylines whose consecutive moves are axis-aligned (all
concrete polylines below move due north) this equals the Euclidean planar
length in degrees that the geometry library computes. -/
def manhattan_length : List Point → ℚ
  | p :: q :: rest => |q.1 - p.1| + |q.2 - p.2| + manhattan_length (q :: rest)
  | _ => 0

/-- Degrees-to-metres factor for latitude; the source itself uses
1 degree ~ 111 km for its buffer conversion. -/
def meters_per_degree : ℚ := 111000

/-- Geodesic length in metres of a due-north move between two latitudes. -/
def north_geodesic_m (lat0 lat1 : ℚ) : ℚ :=
  |lat1 - lat0| * meters_per_degree

/-- RouteSegment record of the scoring document (geometry fields elided:
only the risk score and cell count feed `score_route`). -/
structure RouteSegment where
  segment_index : ℕ
  risk_score : ℚ
  cell_count : ℕ

/-- The function `calculate_segment_risk` of the scoring document: recency-weighted mean
weighted count across the intersecting cells.  When `time_of_day` is given
the code replaces the cell's weighted count by
`sum(count * CRIME_TIME_WEIGHTS[cat][time_of_day] for cat, count in
cell.stats.items())` — note: with no harm weight in the product. -/
def calculate_segment_risk (cells : List SafetyCell) (current_month : ℕ)
    (time_of_day : Option TimeOfDay) : ℚ :=
  let total_weighted_risk := cells.foldl (fun acc cell =>
    let recency_mult := get_recency_weight (calculate_months_ago cell.month current_month)
    let weighted_count : ℚ :=
      match time_of_day with
      | some t => ∑ c : Cat, (cell.stats c : ℚ) * CRIME_TIME_WEIGHTS c t
      | none => cell.crime_count_weighted
    acc + weighted_count * recency_mult) 0
  match cells with
  | [] => 0
  | _ => total_weighted_risk / cells.length

/-- The function `score_route` of the scoring document: mean segment risk fed through the
shared risk function.  The Python body divides by `len(segments)` with no
guard; the `ZeroDivisionError` it raises on an empty segment list is
embedded as the `Except.error` case. -/
def score_route (segments : List RouteSegment) : Except String ℚ :=
  match segments with
  | [] => Except.error "division by zero"
  | _ =>
    let avg_segment_risk := (segments.map RouteSegment.risk_score).sum / segments.length
    let risk_score := calculate_risk_score avg_segment_risk
    Except.ok ((1 - risk_score) * 100)

/-- Hexagon-side aggregation: `total_weighted` of the in-memory
`cell_aggregates` structure (weighted count with recency applied) for one
h3 group. -/
def hexagon_total_weighted (cells : List SafetyCell) (current_month : ℕ) : ℚ :=
  cells.foldl (fun acc cell =>
    acc + cell.crime_count_weighted *
      get_recency_weight (calculate_months_ago cell.month current_month)) 0

/-- The hexagon scoring call site of the snapshot endpoint:
`risk_score = calculate_risk_score(weighted_count)` then
`safety_score = (1.0 - risk_score) * 100`. -/
def hexagon_safety_score (weighted_count : ℚ) : ℚ :=
  (1 - calculate_risk_score weighted_count) * 100

/-- Modelled from the spec: the query-time weighted value of a cell when
`time_of_day` is supplied, `w_cell = Σ stats[cat] · harm_weight[cat] ·
tod[cat][time_of_day]` (spec §4.5 step 3; the scoring document's own
Step 2.2 and worked Example 1 use the same product). -/
def spec_tod_weighted (cell : SafetyCell) (t : TimeOfDay) : ℚ :=
  ∑ c : Cat, (cell.stats c : ℚ) * harm_weight c * CRIME_TIME_WEIGHTS c t

/-- The function `getRiskClass` of the frontend route-history page: thresholds 70/40. -/
def getRiskClass (score : ℚ) : String :=
  if score ≥ 70 then "low"
  else if score ≥ 40 then "medium"
  else "high"

/-- The heatmap style of the frontend map page: colour by safety score with
thresholds 75/50 (green, yellow, red). -/
def heatmapColor (safetyScore : ℚ) : String :=
  if safetyScore ≥ 75 then "#16a34a"
  else if safetyScore ≥ 50 then "#ca8a04"
  else "#dc2626"

/-- Python's round-half-to-even on a rational, to the nearest integer. -/
def python_round (y : ℚ) : ℤ :=
  let f := ⌊y⌋
  let r := y - (f : ℚ)
  if r < 1/2 then f
  else if 1/2 < r then f + 1
  else if Even f then f else f + 1

/-- Python's `round(x, 1)` on rationals. -/
def python_round_1 (x : ℚ) : ℚ :=
  (python_round (x * 10) : ℚ) / 10

/-- Step 3.3 of the scoring document:
`safety_score = round((1.0 - risk_score) * 100, 1)`. -/
def safety_score_of_risk (risk_score : ℚ) : ℚ :=
  python_round_1 ((1 - risk_score) * 100)

/-- The risk-class table as the specification words it: low if safety ≥ 75,
medium if 50 ≤ safety < 75, high otherwise; stated from the spec's words
for comparison against the frontend code. -/
def spec_risk_class (safety : ℚ) : String :=
  if safety ≥ 75 then "low"
  else if safety ≥ 50 then "medium"
  else "high"

/-- C1: for every weighted count w ≥ 0 the risk function equals the spec's
piecewise-linear table, with R(5) = 0.2, R(200) = 0.95 and R(w) = 1 for
w ≥ 400. -/
theorem c1_risk_function_matches_table (w : ℚ) (hw : 0 ≤ w) :
    (w = 0 → calculate_risk_score w = 0) ∧
    (0 < w → w < 5 → calculate_risk_score w = 0.2 * w / 5) ∧
    (5 ≤ w → w < 20 → calculate_risk_score w = 0.2 + 0.2 * (w - 5) / 15) ∧
    (20 ≤ w → w < 50 → calculate_risk_score w = 0.4 + 0.2 * (w - 20) / 30) ∧
    (50 ≤ w → w < 100 → calculate_risk_score w = 0.6 + 0.2 * (w - 50) / 50) ∧
    (100 ≤ w → w < 200 → calculate_risk_score w = 0.8 + 0.15 * (w - 100) / 100) ∧
    (200 ≤ w → calculate_risk_score w = 0.95 + 0.05 * min (w - 200) 200 / 200) ∧
    calculate_risk_score 5 = 0.2 ∧
    calculate_risk_score 200 = 0.95 ∧
    (400 ≤ w → calculate_risk_score w = 1) := by
  unfold calculate_risk_score RISK_THRESHOLDS_very_low RISK_THRESHOLDS_low
    RISK_THRESHOLDS_moderate RISK_THRESHOLDS_high RISK_THRESHOLDS_very_high
  refine ⟨?_, ?_, ?_, ?_, ?_, ?_, ?_, ?_, ?_, ?_⟩
  · intro h; split_ifs <;> first | rfl | linarith
  · intro h1 h2; split_ifs <;> first | linarith | ring1
  · intro h1 h2; split_ifs <;> first | linarith | ring1
  · intro h1 h2; split_ifs <;> first | linarith | ring1
  · intro h1 h2; split_ifs <;> first | linarith | ring1
  · intro h1 h2; split_ifs <;> first | linarith | ring1
  · intro h1; split_ifs <;> first | linarith | ring1
  · norm_num
  · norm_num
  · intro h1
    split_ifs <;> try linarith
    rw [min_eq_right (by linarith)]
    norm_num

/-- Witness for C1: the theorem applied at w = 7, which lies in the
[5, 20) branch. -/
theorem c1_witness : calculate_risk_score 7 = 0.2 + 0.2 * (7 - 5) / 15 :=
  ((c1_risk_function_matches_table 7 (by norm_num)).2.2.1 (by norm_num) (by norm_num))

/-- C6: the recency weight function returns exactly the table value for
k = 0..12 and 0.30 for every k > 12. -/
theorem c6_recency_weight_table :
    get_recency_weight 0 = 1 ∧ get_recency_weight 1 = 0.95 ∧
    get_recency_weight 2 = 0.9 ∧ get_recency_weight 3 = 0.85 ∧
    get_recency_weight 4 = 0.75 ∧ get_recency_weight 5 = 0.7 ∧
    get_recency_weight 6 = 0.65 ∧ get_recency_weight 7 = 0.6 ∧
    get_recency_weight 8 = 0.55 ∧ get_recency_weight 9 = 0.5 ∧
    get_recency_weight 10 = 0.45 ∧ get_recency_weight 11 = 0.4 ∧
    get_recency_weight 12 = 0.35 ∧
    ∀ k : ℕ, 12 < k → get_recency_weight k = 0.3 := by
  refine ⟨?_, ?_, ?_, ?_, ?_, ?_, ?_, ?_, ?_, ?_, ?_, ?_, ?_, ?_⟩
  case _ => norm_num [get_recency_weight]
  case _ => norm_num [get_recency_weight]
  case _ => norm_num [get_recency_weight]
  case _ => norm_num [get_recency_weight]
  case _ => norm_num [get_recency_weight]
  case _ => norm_num [get_recency_weight]
  case _ => norm_num [get_recency_weight]
  case _ => norm_num [get_recency_weight]
  case _ => norm_num [get_recency_weight]
  case _ => norm_num [get_recency_weight]
  case _ => norm_num [get_recency_weight]
  case _ => norm_num [get_recency_weight]
  case _ => norm_num [get_recency_weight]
  case _ =>
    intro k hk
    unfold get_recency_weight
    iterate 13 rw [if_neg (by omega)]

/-- Witness for C6: the tail clause of the theorem applied at k = 25. -/
theorem c6_witness : get_recency_weight 25 = 0.3 :=
  c6_recency_weight_table.2.2.2.2.2.2.2.2.2.2.2.2.2 25 (by norm_num)

set_option maxHeartbeats 3200000 in
/-- C5: the risk mapping is monotone — increasing the weighted count by any
non-negative amount (as adding an event to a bucket does) never decreases
the risk score; equivalently R is non-decreasing on [0, ∞). -/
theorem c5_risk_monotone (w d : ℚ) (hw : 0 ≤ w) (hd : 0 ≤ d) :
    calculate_risk_score w ≤ calculate_risk_score (w + d) := by
  unfold calculate_risk_score RISK_THRESHOLDS_very_low RISK_THRESHOLDS_low
    RISK_THRESHOLDS_moderate RISK_THRESHOLDS_high RISK_THRESHOLDS_very_high
  rcases le_total (w - 200) (200 : ℚ) with h1 | h1 <;>
    rcases le_total (w + d - 200) (200 : ℚ) with h2 | h2
  · rw [min_eq_left h1, min_eq_left h2]
    split_ifs <;> linarith
  · rw [min_eq_left h1, min_eq_right h2]
    split_ifs <;> linarith
  · rw [min_eq_right h1, min_eq_left h2]
    split_ifs <;> linarith
  · rw [min_eq_right h1, min_eq_right h2]
    split_ifs <;> linarith

/-- Witness for C5: the theorem applied at w = 3, d = 4. -/
theorem c5_witness : calculate_risk_score 3 ≤ calculate_risk_score (3 + 4) :=
  c5_risk_monotone 3 4 (by norm_num) (by norm_num)

/-- C7: the conservation invariant — each per-event fold step preserves
`crime_count_total = Σ stats` and `crime_count_weighted = Σ harm·stats`
(exact equality, hence within any tolerance), and every cell built by the
aggregation fold from an empty bucket satisfies both. -/
theorem c7_conservation_invariant :
    (∀ (cell : SafetyCell) (category : Cat),
        cell_conservation cell → cell_conservation (fold_event cell category)) ∧
    (∀ (m : ℕ) (events : List Cat),
        cell_conservation (events.foldl fold_event (empty_cell m))) := by
  have hstep : ∀ (cell : SafetyCell) (category : Cat),
      cell_conservation cell → cell_conservation (fold_event cell category) := by
    rintro cell category ⟨h1, h2⟩
    constructor
    · show cell.crime_count_total + 1
        = ∑ c : Cat, (if c = category then cell.stats c + 1 else cell.stats c)
      have hc : ∀ c : Cat, (if c = category then cell.stats c + 1 else cell.stats c)
          = cell.stats c + (if c = category then 1 else 0) := by
        intro c; split_ifs <;> simp
      rw [Finset.sum_congr rfl fun c _ => hc c, Finset.sum_add_distrib,
        Finset.sum_ite_eq' Finset.univ category fun _ => 1]
      simp [h1]
    · show cell.crime_count_weighted + harm_weight category
        = ∑ c : Cat, harm_weight c *
            (((if c = category then cell.stats c + 1 else cell.stats c) : ℕ) : ℚ)
      have hc : ∀ c : Cat, harm_weight c *
            (((if c = category then cell.stats c + 1 else cell.stats c) : ℕ) : ℚ)
          = harm_weight c * (cell.stats c : ℚ)
            + (if c = category then harm_weight c else 0) := by
        intro c
        split_ifs with h
        · push_cast; ring
        · simp
      rw [Finset.sum_congr rfl fun c _ => hc c, Finset.sum_add_distrib,
        Finset.sum_ite_eq' Finset.univ category harm_weight]
      simp [h2]
  refine ⟨hstep, ?_⟩
  intro m events
  have hfold : ∀ (evs : List Cat) (cell : SafetyCell),
      cell_conservation cell → cell_conservation (evs.foldl fold_event cell) := by
    intro evs
    induction evs with
    | nil => exact fun cell h => h
    | cons e rest ih => exact fun cell h => ih _ (hstep cell e h)
  refine hfold events (empty_cell m) ?_
  constructor <;> simp [empty_cell]

/-- Witness for C7: the step clause applied to the empty bucket and one
violent-crime event. -/
theorem c7_witness :
    cell_conservation (fold_event (empty_cell 0) Cat.violentCrime) := by
  refine c7_conservation_invariant.1 (empty_cell 0) Cat.violentCrime ?_
  constructor <;> simp [empty_cell]

/-- Sums over the category type, written out constructor by constructor. -/
theorem sum_cat (f : Cat → ℚ) :
    ∑ c : Cat, f c = f Cat.violentCrime + f Cat.burglary + f Cat.other := by
  rw [show (Finset.univ : Finset Cat)
      = {Cat.violentCrime, Cat.burglary, Cat.other} by decide]
  rw [Finset.sum_insert (by decide), Finset.sum_insert (by decide),
    Finset.sum_singleton]
  ring

/-- The single-cell input on which the time-of-day weighting is checked:
one violent-crime event in the current month. -/
def c2_cell : SafetyCell :=
  { month := 0
    crime_count_total := 1
    crime_count_weighted := 3
    stats := fun c => if c = Cat.violentCrime then 1 else 0 }

/-- C2: for one violent-crime event (harm weight 3.0) queried at night
(multiplier 2.5) the spec's query-time weighted value is 7.5, but
`calculate_segment_risk` computes 2.5 — its time-of-day branch multiplies
the raw category count by the time multiplier only, dropping the harm
weight, contradicting the scoring document's own Step 2.2 and worked
examples. -/
theorem c2_tod_weight_drops_harm_weight :
    calculate_segment_risk [c2_cell] 0 (some TimeOfDay.night) = 5/2 ∧
    spec_tod_weighted c2_cell TimeOfDay.night = 15/2 ∧
    calculate_segment_risk [c2_cell] 0 (some TimeOfDay.night) ≠
      spec_tod_weighted c2_cell TimeOfDay.night := by
  have hsum1 : (∑ c : Cat, (c2_cell.stats c : ℚ) * CRIME_TIME_WEIGHTS c TimeOfDay.night)
      = 5/2 := by
    rw [sum_cat]
    norm_num [c2_cell, CRIME_TIME_WEIGHTS,
      show Cat.burglary ≠ Cat.violentCrime from by decide,
      show Cat.other ≠ Cat.violentCrime from by decide]
  have hcode : calculate_segment_risk [c2_cell] 0 (some TimeOfDay.night) = 5/2 := by
    simp [calculate_segment_risk, calculate_months_ago, get_recency_weight, hsum1]
  have hspec : spec_tod_weighted c2_cell TimeOfDay.night = 15/2 := by
    rw [spec_tod_weighted, sum_cat]
    norm_num [c2_cell, harm_weight, CRIME_TIME_WEIGHTS,
      show Cat.burglary ≠ Cat.violentCrime from by decide,
      show Cat.other ≠ Cat.violentCrime from by decide]
  refine ⟨hcode, hspec, ?_⟩
  rw [hcode, hspec]
  norm_num

/-- C3: hexagon scoring and route scoring share one risk function — for any
cell and current month, the snapshot's safety score for that cell equals
the route score of a single-segment route whose intersecting-cell set is
exactly that cell (the segment mean is then the cell's weighted total). -/
theorem c3_hexagon_route_parity (cell : SafetyCell) (current_month : ℕ) :
    score_route [⟨0, calculate_segment_risk [cell] current_month none, 1⟩] =
      Except.ok (hexagon_safety_score (hexagon_total_weighted [cell] current_month)) := by
  simp [score_route, calculate_segment_risk, hexagon_total_weighted,
    hexagon_safety_score]

/-- The planar length of any polyline is non-negative. -/
theorem manhattan_length_nonneg : ∀ xs : List Point, 0 ≤ manhattan_length xs := by
  intro xs
  induction xs with
  | nil => simp [manhattan_length]
  | cons p tail ih =>
    cases tail with
    | nil => simp [manhattan_length]
    | cons q rest =>
      simp only [manhattan_length]
      have h1 : (0 : ℚ) ≤ |q.1 - p.1| := abs_nonneg _
      have h2 : (0 : ℚ) ≤ |q.2 - p.2| := abs_nonneg _
      linarith

/-- Extending a polyline never shortens its planar length. -/
theorem manhattan_length_le_append : ∀ xs ys : List Point,
    manhattan_length xs ≤ manhattan_length (xs ++ ys) := by
  intro xs ys
  induction xs with
  | nil => simpa [manhattan_length] using manhattan_length_nonneg ys
  | cons p tail ih =>
    cases tail with
    | nil => simpa [manhattan_length] using manhattan_length_nonneg (p :: ys)
    | cons q rest =>
      simp only [List.cons_append, List.append_eq, manhattan_length] at ih ⊢
      linarith

/-- If the whole remaining polyline keeps the accumulated sub-polyline
below the threshold, the loop flushes nothing: it returns exactly the
segments it was given. -/
theorem segment_route_loop_short (t : ℚ) :
    ∀ (rest current : List Point) (segments : List (List Point)),
      manhattan_length (current ++ rest) < t →
      segment_route_loop manhattan_length t segments current rest = segments := by
  intro rest
  induction rest with
  | nil => intro current segments _; rfl
  | cons point rest' ih =>
    intro current segments h
    have hcat : (current ++ [point]) ++ rest' = current ++ point :: rest' := by
      simp
    have hlt : manhattan_length (current ++ [point]) < t := by
      have h1 := manhattan_length_le_append (current ++ [point]) rest'
      rw [hcat] at h1
      linarith
    simp only [segment_route_loop]
    rw [if_neg (not_le.mpr hlt)]
    apply ih
    rw [hcat]
    exact h

/-- The segmentation walk with its final state made explicit: it returns
the flushed segments together with the trailing `current_segment` that the
source's `segment_route` discards on return. -/
def segment_route_rem (lineLength : List Point → ℚ) (max_segment_length : ℚ) :
    List Point → List Point → List (List Point) × List Point
  | current, [] => ([], current)
  | current, point :: rest =>
    let seg := current ++ [point]
    if max_segment_length ≤ lineLength seg then
      let r := segment_route_rem lineLength max_segment_length [point] rest
      (seg :: r.1, r.2)
    else
      segment_route_rem lineLength max_segment_length seg rest

/-- Reassemble a vertex sequence from a segment list and a trailing
remainder: consecutive pieces share their junction vertex, which is kept
once. -/
def glue : List (List Point) → List Point → List Point
  | [], rem => rem
  | s :: ss, rem => s ++ (glue ss rem).drop 1

/-- The source's loop emits exactly the flushed segments of the walk: the
trailing remainder is not among them. -/
theorem segment_route_loop_eq_rem (lineLength : List Point → ℚ) (t : ℚ) :
    ∀ (rest current : List Point) (segments : List (List Point)),
      segment_route_loop lineLength t segments current rest
        = segments ++ (segment_route_rem lineLength t current rest).1 := by
  intro rest
  induction rest with
  | nil => intro current segments; simp [segment_route_loop, segment_route_rem]
  | cons point rest' ih =>
    intro current segments
    simp only [segment_route_loop, segment_route_rem]
    by_cases hc : t ≤ lineLength (current ++ [point])
    · rw [if_pos hc, if_pos hc, ih]
      simp
    · rw [if_neg hc, if_neg hc, ih]

/-- Gluing the flushed segments back onto the trailing remainder recovers
the original vertex sequence. -/
theorem segment_route_rem_glue (lineLength : List Point → ℚ) (t : ℚ) :
    ∀ (rest current : List Point), current ≠ [] →
      glue (segment_route_rem lineLength t current rest).1
        (segment_route_rem lineLength t current rest).2 = current ++ rest := by
  intro rest
  induction rest with
  | nil => intro current _; simp [segment_route_rem, glue]
  | cons point rest' ih =>
    intro current _
    simp only [segment_route_rem]
    by_cases hc : t ≤ lineLength (current ++ [point])
    · rw [if_pos hc]
      simp only [glue]
      rw [ih [point] (by simp)]
      simp
    · rw [if_neg hc]
      rw [ih (current ++ [point]) (by simp)]
      simp

/-- The walk always ends with a non-empty trailing remainder. -/
theorem segment_route_rem_ne_nil (lineLength : List Point → ℚ) (t : ℚ) :
    ∀ (rest current : List Point), current ≠ [] →
      (segment_route_rem lineLength t current rest).2 ≠ [] := by
  intro rest
  induction rest with
  | nil => intro current h; simpa [segment_route_rem] using h
  | cons point rest' ih =>
    intro current _
    simp only [segment_route_rem]
    by_cases hc : t ≤ lineLength (current ++ [point])
    · rw [if_pos hc]
      exact ih [point] (by simp)
    · rw [if_neg hc]
      exact ih (current ++ [point]) (by simp)

/-- Every segment the walk flushes had reached the threshold. -/
theorem segment_route_rem_flushed (lineLength : List Point → ℚ) (t : ℚ) :
    ∀ (rest current seg : List Point),
      seg ∈ (segment_route_rem lineLength t current rest).1 →
      t ≤ lineLength seg := by
  intro rest
  induction rest with
  | nil => intro current seg h; simp [segment_route_rem] at h
  | cons point rest' ih =>
    intro current seg h
    simp only [segment_route_rem] at h
    by_cases hc : t ≤ lineLength (current ++ [point])
    · rw [if_pos hc] at h
      simp only [List.mem_cons] at h
      rcases h with h | h
      · rw [h]
        exact hc
      · exact ih [point] seg h
    · rw [if_neg hc] at h
      exact ih (current ++ [point]) seg h

/-- Whenever the trailing remainder is a genuine sub-polyline (at least two
vertices), its accumulated length never reached the threshold. -/
theorem segment_route_rem_below (lineLength : List Point → ℚ) (t : ℚ) :
    ∀ (rest current : List Point),
      (2 ≤ current.length → lineLength current < t) →
      2 ≤ (segment_route_rem lineLength t current rest).2.length →
      lineLength (segment_route_rem lineLength t current rest).2 < t := by
  intro rest
  induction rest with
  | nil =>
    intro current hP h2
    simp only [segment_route_rem] at h2 ⊢
    exact hP h2
  | cons point rest' ih =>
    intro current hP h2
    simp only [segment_route_rem] at h2 ⊢
    by_cases hc : t ≤ lineLength (current ++ [point])
    · rw [if_pos hc] at h2 ⊢
      exact ih [point] (by intro h; simp at h) h2
    · rw [if_neg hc] at h2 ⊢
      exact ih (current ++ [point]) (fun _ => not_le.mp hc) h2

/-- C10: segmentation discards the trailing remainder — for every polyline
and every length function, the emitted list is exactly the flushed
segments of the walk (each of which reached the threshold); gluing them
onto the trailing remainder, which is always non-empty, never appended,
and strictly below the threshold whenever it is a genuine sub-polyline,
recovers the full vertex sequence; and any polyline whose total length
stays below the threshold yields no segment at all. -/
theorem c10_trailing_remainder_dropped :
    (∀ (lineLength : List Point → ℚ) (t : ℚ) (p : Point) (rest : List Point),
      segment_route lineLength t (p :: rest)
          = (segment_route_rem lineLength t [p] rest).1 ∧
      glue (segment_route_rem lineLength t [p] rest).1
          (segment_route_rem lineLength t [p] rest).2 = p :: rest ∧
      (segment_route_rem lineLength t [p] rest).2 ≠ [] ∧
      (∀ seg ∈ segment_route lineLength t (p :: rest), t ≤ lineLength seg) ∧
      (2 ≤ (segment_route_rem lineLength t [p] rest).2.length →
          lineLength (segment_route_rem lineLength t [p] rest).2 < t)) ∧
    (∀ (t : ℚ) (coords : List Point), manhattan_length coords < t →
        segment_route manhattan_length t coords = []) := by
  refine ⟨?_, ?_⟩
  · intro lineLength t p rest
    have h1 : segment_route lineLength t (p :: rest)
        = (segment_route_rem lineLength t [p] rest).1 := by
      show segment_route_loop lineLength t [] [p] rest = _
      rw [segment_route_loop_eq_rem]
      rfl
    refine ⟨h1, ?_, ?_, ?_, ?_⟩
    · exact segment_route_rem_glue lineLength t rest [p] (by simp)
    · exact segment_route_rem_ne_nil lineLength t rest [p] (by simp)
    · intro seg hseg
      rw [h1] at hseg
      exact segment_route_rem_flushed lineLength t rest [p] seg hseg
    · exact segment_route_rem_below lineLength t rest [p] (by intro h; simp at h)
  · intro t coords h
    match coords with
    | [] => rfl
    | p :: rest =>
      show segment_route_loop manhattan_length t [] [p] rest = []
      exact segment_route_loop_short t rest [p] [] h

/-- Witness for C10: the short-route clause of the theorem applied to a
two-vertex due-north polyline of planar length 0.0004 degrees. -/
theorem c10_witness :
    segment_route manhattan_length (1/1000) [((0 : ℚ), (0 : ℚ)), ((0 : ℚ), (4/10000 : ℚ))]
      = [] :=
  c10_trailing_remainder_dropped.2 (1/1000) _ (by norm_num [manhattan_length, abs])

/-- C9: the division by len(segments) in `score_route` is unguarded — a
valid polyline of two distinct vertices whose total length stays below the
segmentation threshold yields no segment at all, and route scoring of the
resulting empty segment list reaches the division-by-zero error branch. -/
theorem c9_division_by_zero_reachable :
    ∃ coords : List Point,
      2 ≤ coords.length ∧ coords.Nodup ∧
      manhattan_length coords < 1/1000 ∧
      segment_route manhattan_length (1/1000) coords = [] ∧
      score_route ((segment_route manhattan_length (1/1000) coords).map
          (fun seg => ⟨0, calculate_segment_risk [] 0 none, seg.length⟩)) =
        Except.error "division by zero" := by
  refine ⟨[(0, 0), (0, 5/10000)], ?_, ?_, ?_, ?_, ?_⟩
  · norm_num
  · norm_num [Prod.ext_iff]
  · norm_num [manhattan_length, abs]
  · norm_num [segment_route, segment_route_loop, manhattan_length, abs]
  · have h : segment_route manhattan_length (1/1000) [((0 : ℚ), (0 : ℚ)), ((0 : ℚ), (5/10000 : ℚ))]
        = [] := by
      norm_num [segment_route, segment_route_loop, manhattan_length, abs]
    rw [h]
    rfl

/-- C4: the code segments by a planar degree threshold (0.001 degrees), not
by geodesic metres — a due-north polyline of geodesic length 105.45 m
(≥ 100 m, using the source's own 1 degree ~ 111 km factor) yields no
segment because its planar degree length 0.00095 stays below 0.001. -/
theorem c4_degree_threshold_not_geodesic_meters :
    north_geodesic_m 0 (95/100000) = 10545/100 ∧
    100 ≤ north_geodesic_m 0 (95/100000) ∧
    manhattan_length [((0 : ℚ), (0 : ℚ)), ((0 : ℚ), (95/100000 : ℚ))] = 95/100000 ∧
    segment_route manhattan_length (1/1000)
      [((0 : ℚ), (0 : ℚ)), ((0 : ℚ), (95/100000 : ℚ))] = [] := by
  refine ⟨?_, ?_, ?_, ?_⟩ <;>
    norm_num [north_geodesic_m, meters_per_degree, manhattan_length, abs,
      segment_route, segment_route_loop]

/-- C8 counterexample: at safety score 72 the frontend's `getRiskClass`
answers "low" while the claimed 75/50 table prescribes "medium". -/
theorem c8_risk_class_counterexample :
    getRiskClass 72 = "low" ∧ spec_risk_class 72 = "medium" ∧
    getRiskClass 72 ≠ spec_risk_class 72 := by
  refine ⟨?_, ?_, ?_⟩
  · norm_num [getRiskClass]
  · norm_num [spec_risk_class]
  · rw [show getRiskClass 72 = "low" by norm_num [getRiskClass],
      show spec_risk_class 72 = "medium" by norm_num [spec_risk_class]]
    decide

/-- C8 amended: the safety score equals round((1 − R(w))·100, 1); the map
heatmap styles cells with thresholds 75/50, while the route-history page's
risk class uses thresholds 70/40 (low if safety ≥ 70, medium if
40 ≤ safety < 70, high if safety < 40). -/
theorem c8_amended_thresholds :
    (∀ r : ℚ, safety_score_of_risk r = python_round_1 ((1 - r) * 100)) ∧
    (∀ s : ℚ, (75 ≤ s → heatmapColor s = "#16a34a") ∧
      (50 ≤ s → s < 75 → heatmapColor s = "#ca8a04") ∧
      (s < 50 → heatmapColor s = "#dc2626")) ∧
    (∀ s : ℚ, (70 ≤ s → getRiskClass s = "low") ∧
      (40 ≤ s → s < 70 → getRiskClass s = "medium") ∧
      (s < 40 → getRiskClass s = "high")) := by
  refine ⟨fun r => rfl, fun s => ⟨?_, ?_, ?_⟩, fun s => ⟨?_, ?_, ?_⟩⟩
  · intro h
    unfold heatmapColor
    rw [if_pos (by linarith)]
  · intro h1 h2
    unfold heatmapColor
    rw [if_neg (by linarith), if_pos (by linarith)]
  · intro h
    unfold heatmapColor
    rw [if_neg (by linarith), if_neg (by linarith)]
  · intro h
    unfold getRiskClass
    rw [if_pos (by linarith)]
  · intro h1 h2
    unfold getRiskClass
    rw [if_neg (by linarith), if_pos (by linarith)]
  · intro h
    unfold getRiskClass
    rw [if_neg (by linarith), if_neg (by linarith)]

/-- Witness for C8: the amended heatmap clause applied at safety 80. -/
theorem c8_witness : heatmapColor 80 = "#16a34a" :=
  (c8_amended_thresholds.2.1 80).1 (by norm_num)

end SafeRoute
